import Mathlib

/-!
Verification development for the write-path push pipeline of the log
distributor (`pkg/distributor/distributor.go`).

The Go source is shallowly embedded: pure data as Lean structures, the
stateful push pipeline as explicit state passing, and the concurrent
fan-out / tracker logic (`sendToIngester` plus `pushTracker`) as a step
relation on an explicit tracker state driven by traces of per-stream
atomic operations.  External collaborators (label parsing, label
validation, token hashing, the ingester ring and the rate limiter) are
parameters of the embedding, collected in `DistEnv`; parts of the
repository that are referenced but not part of the distributor source
(entry validation) are modelled from the specification and marked as
such.
-/

namespace Distributor

/-- A log entry: nanosecond timestamp and an opaque line, embedded as a
list of characters standing for the raw bytes (`logproto.Entry`). -/
structure Entry where
  timestamp : Int
  line : List Char
deriving DecidableEq, Repr

/-- A log stream: raw or canonical label string plus ordered entries
(`logproto.Stream`). -/
structure Stream where
  labels : String
  entries : List Entry
deriving DecidableEq, Repr

/-- The per-tenant validation snapshot used by the push pipeline
(`validationContext`); only the fields the distributor source reads are
embedded. -/
structure ValidationContext where
  userID : String
  maxLineSize : Nat
  maxLineSizeTruncate : Bool
  rejectOldSamplesMaxAge : Int
  creationGracePeriod : Int
deriving Repr

/-- Reasons with which entry validation can reject an entry. -/
inductive EntryReason where
  | lineTooLong
  | tooOld
  | tooNew
deriving DecidableEq, Repr

/-- Errors surfaced by the push pipeline.  Error messages are embedded
structurally: a constructor carries exactly the data the Go error
message interpolates. -/
inductive PushErr where
  | invalidLabels (key : String)
  | invalidEntry (labels : String) (reason : EntryReason) (timestamp : Int)
  | rateLimited (tenant : String) (limit : Nat) (samples : Nat) (bytes : Nat)
  | ringError (msg : String)
deriving DecidableEq, Repr

/-- A replication set as returned by `ring.Get`: instance addresses and
the number of tolerable per-replica errors. -/
structure RepSet where
  instances : List String
  maxErrors : Nat
deriving DecidableEq, Repr

/-! ## Line truncation (`truncateLines`, distributor.go lines 344-361) -/

/-- The condition of the conditional inside the `truncateLines` loop:
`maxSize != 0 && len(e.Line) > maxSize`. -/
def needsTrunc (maxSize : Nat) (e : Entry) : Bool :=
  maxSize != 0 && maxSize < e.line.length

/-- One iteration of the `truncateLines` loop on one entry:
`stream.Entries[i].Line = e.Line[:maxSize]` when the guard holds,
otherwise the entry is untouched. -/
def truncEntry (maxSize : Nat) (e : Entry) : Entry :=
  if needsTrunc maxSize e then { e with line := e.line.take maxSize } else e

/-- Embedding of `Distributor.truncateLines`.  Returns the mutated
stream together with the values the function adds to the
mutated-samples and mutated-bytes counters.  The loop increments
`truncatedSamples` once per truncated entry but ASSIGNS (rather than
accumulates) `truncatedBytes = len(e.Line) - maxSize`, so the byte
counter receives only the delta of the last truncated entry; the
embedding reproduces that with `getLast?`. -/
def truncateLines (v : ValidationContext) (s : Stream) : Stream × Nat × Nat :=
  if !v.maxLineSizeTruncate then (s, 0, 0)
  else
    let tooLong := s.entries.filter (needsTrunc v.maxLineSize)
    ({ s with entries := s.entries.map (truncEntry v.maxLineSize) },
     tooLong.length,
     match tooLong.getLast? with
     | some e => e.line.length - v.maxLineSize
     | none => 0)

/-! ## Entry validation (modelled from the spec) -/

/-- Modelled from the spec: `Validator.ValidateEntry` lives in
`pkg/validation`, which is not part of the provided source.  Per the
spec it fails with InvalidEntry if the line length exceeds
`max_line_size` and truncation is disabled, if the timestamp is older
than `reject_old_samples_max_age`, or if it is newer than
`creation_grace_period` in the future.  A `max_line_size` of zero means
unlimited, matching the `maxSize != 0` convention of the source. -/
def validateEntry (now : Int) (v : ValidationContext) (e : Entry) : Option EntryReason :=
  if v.maxLineSize ≠ 0 ∧ v.maxLineSize < e.line.length ∧ v.maxLineSizeTruncate = false then
    some .lineTooLong
  else if e.timestamp < now - v.rejectOldSamplesMaxAge then
    some .tooOld
  else if now + v.creationGracePeriod < e.timestamp then
    some .tooNew
  else
    none

/-! ## Label cache (bounded LRU, `labelCache`) -/

/-- Maximum label-cache size (`maxLabelCacheSize` in the source). -/
def maxLabelCacheSize : Nat := 100000

/-- The label cache, most-recently-inserted first.  Modelled from the
spec: the backing `hashicorp/golang-lru` store is an external library;
a bounded association list with front insertion and capacity trimming
captures its map behaviour.  Recency promotion on `Get` is omitted as
it affects only which key is evicted, never a stored value. -/
abbrev LabelCache : Type := List (String × String)

/-- Cache lookup (`labelCache.Get`). -/
def cacheGet (c : LabelCache) (k : String) : Option String :=
  (List.find? (fun p => p.1 = k) c).map (fun p => p.2)

/-- Cache insertion (`labelCache.Add`): insert at the front, drop any
older binding of the same key, trim to capacity. -/
def cacheAdd (c : LabelCache) (k v : String) : LabelCache :=
  List.take maxLabelCacheSize ((k, v) :: List.filter (fun p => p.1 != k) c)

/-! ## External collaborators as parameters -/

/-- The external collaborators the distributor source calls, collected
as parameters of the embedding: `logql.ParseLabels`, the validator's
label check, canonicalisation (`ls.String()`), `util.TokenFor`, the
ingester ring's `Get`, and the rate limiter's `AllowN` / `Limit`. -/
structure DistEnv where
  parseLabels : String → Option (List (String × String))
  validateLabels : ValidationContext → List (String × String) → Stream → Option PushErr
  canon : List (String × String) → String
  tokenFor : String → String → Nat
  ringGet : Nat → Except String RepSet
  allowN : Nat → Bool
  limit : Nat

/-! ## Label parsing with cache (`parseStreamLabels`, lines 425-441) -/

/-- Embedding of `Distributor.parseStreamLabels`: consult the cache; on
a miss parse, validate, canonicalise, insert and return.  Returns the
result together with the updated cache (the cache is the only state the
function touches). -/
def parseStreamLabels (env : DistEnv) (v : ValidationContext) (cache : LabelCache)
    (key : String) (stream : Stream) : Except PushErr String × LabelCache :=
  match cacheGet cache key with
  | some labelVal => (.ok labelVal, cache)
  | none =>
    match env.parseLabels key with
    | none => (.error (.invalidLabels key), cache)
    | some ls =>
      match env.validateLabels v ls stream with
      | some e => (.error e, cache)
      | none =>
        let lsVal := env.canon ls
        (.ok lsVal, cacheAdd cache key lsVal)

/-! ## Entry filtering inside the preparation loop

The inner loop of `Push` (lines 266-277) validates each entry, compacts
the valid ones in place, and accumulates the validated byte and sample
counts; every failure overwrites `validationErr`. -/

/-- Result of the inner entry loop of `Push` for one stream. -/
structure EntriesResult where
  kept : List Entry
  errs : List PushErr
  size : Nat
  count : Nat
deriving Repr

/-- Embedding of the inner entry loop of `Push`: `kept` is the compacted
surviving entries, `errs` the validation errors in entry order, `size`
and `count` the additions to `validatedSamplesSize` and
`validatedSamplesCount`. -/
def processEntries (now : Int) (v : ValidationContext) (labels : String) :
    List Entry → EntriesResult
  | [] => ⟨[], [], 0, 0⟩
  | e :: rest =>
    match validateEntry now v e with
    | some reason =>
      let r := processEntries now v labels rest
      ⟨r.kept, .invalidEntry labels reason e.timestamp :: r.errs, r.size, r.count⟩
    | none =>
      let r := processEntries now v labels rest
      ⟨e :: r.kept, r.errs, e.line.length + r.size, 1 + r.count⟩

/-! ## The preparation loop of `Push` (lines 245-281)

The Go loop writes each raw stream into the single loop variable
`stream`, mutates it in place, and appends `&stream` — the address of
that one variable — to every stream tracker.  The embedding therefore
carries `loopCell`, the value of the loop variable after the most
recent iteration: this is the cell every tracker's `stream` pointer
refers to once the loop has finished.  `errLog` and `checkedLog` are
ghost fields recording, respectively, every validation error in
encounter order and every entry handed to entry validation; they alter
no computed value and exist only so properties can be stated. -/

structure PrepState where
  streams : List Stream
  keys : List Nat
  validationErr : Option PushErr
  errLog : List PushErr
  checkedLog : List Entry
  cache : LabelCache
  validatedSamplesSize : Nat
  validatedSamplesCount : Nat
  discIvSamples : Nat
  discIvBytes : Nat
  mutSamples : Nat
  mutBytes : Nat
  loopCell : Option Stream

/-- The preparation state at loop entry. -/
def initPrep (cache : LabelCache) : PrepState :=
  { streams := [], keys := [], validationErr := none, errLog := [], checkedLog := [],
    cache := cache, validatedSamplesSize := 0, validatedSamplesCount := 0,
    discIvSamples := 0, discIvBytes := 0, mutSamples := 0, mutBytes := 0, loopCell := none }

/-- One iteration of the preparation loop of `Push` on one raw stream:
skip empty streams, truncate lines, canonicalise labels through
`parseStreamLabels` (on failure record the error, advance the
invalid-labels discard counters by the stream's entry and byte counts,
and leave the loop variable holding the truncated stream with its
`Labels` field overwritten by the empty string, as the Go multi-value
assignment does), then filter entries and append the routing key and
the surviving stream. -/
def prepStream (env : DistEnv) (now : Int) (userID : String) (v : ValidationContext)
    (st : PrepState) (raw : Stream) : PrepState :=
  if raw.entries.isEmpty then { st with loopCell := some raw }
  else
    let t := truncateLines v raw
    let ts := t.1
    let st1 := { st with mutSamples := st.mutSamples + t.2.1, mutBytes := st.mutBytes + t.2.2 }
    let pr := parseStreamLabels env v st1.cache ts.labels ts
    match pr.1 with
    | .error e =>
      { st1 with
        cache := pr.2,
        validationErr := some e,
        errLog := st1.errLog ++ [e],
        discIvSamples := st1.discIvSamples + ts.entries.length,
        discIvBytes := st1.discIvBytes + (ts.entries.map (fun en => en.line.length)).sum,
        loopCell := some { ts with labels := "" } }
    | .ok lbl =>
      let ts2 := { ts with labels := lbl }
      let r := processEntries now v lbl ts2.entries
      let fin := { ts2 with entries := r.kept }
      { st1 with
        cache := pr.2,
        validationErr := r.errs.foldl (fun _ e => some e) st1.validationErr,
        errLog := st1.errLog ++ r.errs,
        checkedLog := st1.checkedLog ++ ts2.entries,
        validatedSamplesSize := st1.validatedSamplesSize + r.size,
        validatedSamplesCount := st1.validatedSamplesCount + r.count,
        keys := st1.keys ++ [env.tokenFor userID lbl],
        streams := st1.streams ++ [fin],
        loopCell := some fin }

/-! ## Replication-set lookup and fan-out plan (lines 296-332) -/

/-- The ring-lookup loop of `Push`: one `ringGet` per routing key, in
key order, returning the first lookup error if any (the Go loop
returns from inside the loop body on the first error). -/
def lookupAll (env : DistEnv) : List Nat → Except String (List RepSet)
  | [] => .ok []
  | k :: ks =>
    match env.ringGet k with
    | .error e => .error e
    | .ok r =>
      match lookupAll env ks with
      | .error e => .error e
      | .ok rs => .ok (r :: rs)

/-- `streamsByIngester[addr] = append(streamsByIngester[addr], ...)`:
append stream index `i` to the list of destination `addr` in an
association list keyed by address. -/
def addTo (m : List (String × List Nat)) (addr : String) (i : Nat) :
    List (String × List Nat) :=
  match m with
  | [] => [(addr, [i])]
  | (a, l) :: rest =>
    if a = addr then (a, l ++ [i]) :: rest else (a, l) :: addTo rest addr i

/-- What `Push` hands to the fan-out goroutines.  `byIngester` is the
per-destination list of stream indices in append (= input) order;
`payloads` is, for each destination, the payload `sendToIngester`
builds by dereferencing each tracker's `stream` pointer — because all
trackers share the address of the one loop variable, every slot holds
`cell`, the loop variable's final value; `succInit` and `failInit` are
the per-stream bucket initialisations
`len(instances) - maxErrors` and `maxErrors`. -/
structure FanoutPlan where
  byIngester : List (String × List Nat)
  payloads : List (String × List Stream)
  succInit : List Int
  failInit : List Int
deriving DecidableEq, Repr

/-- Build the fan-out plan from the surviving stream count, the shared
cell value and the replication sets. -/
def buildPlan (cell : Stream) (n : Nat) (repSets : List RepSet) : FanoutPlan :=
  let byIng := ((List.range n).zip repSets).foldl
    (fun m pr => pr.2.instances.foldl (fun mm a => addTo mm a pr.1) m) []
  { byIngester := byIng,
    payloads := byIng.map (fun pr => (pr.1, pr.2.map (fun _ => cell))),
    succInit := repSets.map (fun r => (r.instances.length : Int) - (r.maxErrors : Int)),
    failInit := repSets.map (fun r => (r.maxErrors : Int)) }

/-! ## `Push` up to the fan-out (lines 223-341) -/

/-- The observable outcome of `Push` before RPC completions arrive:
either an early empty response (`success`, carrying the retained
validation error), an early failure, or the fan-out described by a
`FanoutPlan` (the subsequent success/failure decision is the tracker
machine below). -/
inductive PushOutcome where
  | success (validationErr : Option PushErr)
  | failure (e : PushErr)
  | fanout (plan : FanoutPlan) (validationErr : Option PushErr)
deriving DecidableEq, Repr

/-- Everything observable about one `Push` call: the outcome, the final
value of the `validationErr` variable, the updated cache, the ghost
logs, and the per-reason counter increments this call performed
(invalid-labels and rate-limited discards, line-too-long mutations). -/
structure PushResult where
  outcome : PushOutcome
  validationErr : Option PushErr
  cache : LabelCache
  errLog : List PushErr
  checkedLog : List Entry
  discIvSamples : Nat
  discIvBytes : Nat
  discRlSamples : Nat
  discRlBytes : Nat
  mutSamples : Nat
  mutBytes : Nat
deriving Repr

/-- The tail of `Push` after the preparation loop: the second
empty-check (line 284), rate admission (line 289), ring lookup and
fan-out construction. -/
def pushAfterPrep (env : DistEnv) (userID : String) (p : PrepState) : PushResult :=
  let base : PushResult :=
    { outcome := .success p.validationErr, validationErr := p.validationErr,
      cache := p.cache, errLog := p.errLog, checkedLog := p.checkedLog,
      discIvSamples := p.discIvSamples, discIvBytes := p.discIvBytes,
      discRlSamples := 0, discRlBytes := 0,
      mutSamples := p.mutSamples, mutBytes := p.mutBytes }
  if p.streams.isEmpty then base
  else if !env.allowN p.validatedSamplesSize then
    { base with
      outcome := .failure (.rateLimited userID env.limit
        p.validatedSamplesCount p.validatedSamplesSize),
      discRlSamples := p.validatedSamplesCount,
      discRlBytes := p.validatedSamplesSize }
  else
    match lookupAll env p.keys with
    | .error e => { base with outcome := .failure (.ringError e) }
    | .ok repSets =>
      { base with
        outcome := .fanout
          (buildPlan (p.loopCell.getD { labels := "", entries := [] })
            p.streams.length repSets)
          p.validationErr }

/-- The preparation-loop state after processing a whole request. -/
def prepped (env : DistEnv) (now : Int) (userID : String) (v : ValidationContext)
    (cache : LabelCache) (reqStreams : List Stream) : PrepState :=
  reqStreams.foldl (prepStream env now userID v) (initPrep cache)

/-- Embedding of `Distributor.Push` from the empty-request fast path up
to launching the fan-out goroutines. -/
def push (env : DistEnv) (now : Int) (userID : String) (v : ValidationContext)
    (cache : LabelCache) (reqStreams : List Stream) : PushResult :=
  if reqStreams.isEmpty then
    { outcome := .success none, validationErr := none, cache := cache,
      errLog := [], checkedLog := [],
      discIvSamples := 0, discIvBytes := 0, discRlSamples := 0, discRlBytes := 0,
      mutSamples := 0, mutBytes := 0 }
  else
    pushAfterPrep env userID (prepped env now userID v cache reqStreams)

/-! ## The tracker machine (`pushTracker`, `sendToIngester`, lines 202-220 and 364-402)

Each fan-out goroutine, on RPC completion, walks its stream list and
performs one atomic decrement per stream, followed by the conditional
pending decrement / failed swap and channel send.  `stepEvent` embeds
one such per-stream atomic operation; a trace is any sequence of these
operations, covering every interleaving of the goroutines.  `doneSends`
and `errSends` count the values sent on the `done` and `err` channels. -/

structure TrackerState where
  succ : List Int
  fail : List Int
  pending : Int
  failed : Bool
  doneSends : Nat
  errSends : Nat
deriving DecidableEq, Repr

/-- Tracker state at fan-out launch: buckets as stored by `Push`
(lines 306-307), `pending` initialised to the number of surviving
streams (line 319). -/
def initTracker (succInit failInit : List Int) : TrackerState :=
  { succ := succInit, fail := failInit, pending := (succInit.length : Int),
    failed := false, doneSends := 0, errSends := 0 }

/-- One per-stream atomic operation of `sendToIngester`: a success
(RPC to an ingester holding stream `i` returned nil) or a failure. -/
inductive FanEvent where
  | succ (i : Nat)
  | fail (i : Nat)
deriving DecidableEq, Repr

/-- Embedding of the two per-stream branches of `sendToIngester`.
Success: `successBucket.Dec() > 0 → continue`, otherwise
`pending.Dec() == 0 → done <- struct{}{}`.  Failure:
`failureBucket.Dec() > 0 → continue`, otherwise
`!failed.Swap(true) → err <- err`. -/
def stepEvent (st : TrackerState) (ev : FanEvent) : TrackerState :=
  match ev with
  | .succ i =>
    let val := st.succ.getD i 0 - 1
    let st1 := { st with succ := st.succ.set i val }
    if 0 < val then st1
    else
      let p := st1.pending - 1
      let st2 := { st1 with pending := p }
      if p = 0 then { st2 with doneSends := st2.doneSends + 1 } else st2
  | .fail i =>
    let val := st.fail.getD i 0 - 1
    let st1 := { st with fail := st.fail.set i val }
    if 0 < val then st1
    else if st1.failed then st1
    else { st1 with failed := true, errSends := st1.errSends + 1 }

/-- Run a trace of per-stream operations. -/
def runTrace (st : TrackerState) (tr : List FanEvent) : TrackerState :=
  tr.foldl stepEvent st

/-- The per-stream operations one `sendToIngester` call performs for
its stream-index list, given whether its single RPC succeeded. -/
def ingesterEvents (idxs : List Nat) (ok : Bool) : List FanEvent :=
  idxs.map (fun i => if ok then .succ i else .fail i)

/-! ## Cache soundness invariant and reachable caches -/

/-- Every binding of the label cache was produced by a successful parse
of its key, canonicalised, and inserted only after label validation
passed under the validation context of the inserting request. -/
def CacheOK (env : DistEnv) (c : LabelCache) : Prop :=
  ∀ p ∈ c, ∃ ls, env.parseLabels p.1 = some ls ∧ p.2 = env.canon ls ∧
    ∃ vc stream, env.validateLabels vc ls stream = none

/-- The cache obtained from the empty cache by a sequence of
`parseStreamLabels` calls (each with its own validation context, key
and stream) — the only way the source ever mutates the cache. -/
def runParseCalls (env : DistEnv) (calls : List (ValidationContext × String × Stream)) :
    LabelCache :=
  calls.foldl (fun c q => (parseStreamLabels env q.1 c q.2.1 q.2.2).2) []

/-! ## Concrete instantiations used by witnesses and counterexamples -/

/-- A validation context with truncation disabled and wide timestamp
bounds. -/
def ctxPlain : ValidationContext :=
  { userID := "tenant", maxLineSize := 0, maxLineSizeTruncate := false,
    rejectOldSamplesMaxAge := 1000, creationGracePeriod := 1000 }

/-- A validation context with truncation enabled at 3 bytes. -/
def ctxTrunc3 : ValidationContext :=
  { userID := "tenant", maxLineSize := 3, maxLineSizeTruncate := true,
    rejectOldSamplesMaxAge := 1000, creationGracePeriod := 1000 }

/-- An environment whose label parser rejects every label string. -/
def envParseFail : DistEnv :=
  { parseLabels := fun _ => none,
    validateLabels := fun _ _ _ => none,
    canon := fun _ => "",
    tokenFor := fun _ _ => 0,
    ringGet := fun _ => .ok ⟨["A"], 0⟩,
    allowN := fun _ => true,
    limit := 0 }

/-- An environment that parses every label string, canonicalises it to
itself, and routes every stream to the single ingester `A` with
replication factor 1 and `max_errors` 0. -/
def envOneIngester : DistEnv :=
  { parseLabels := fun s => some [("n", s)],
    validateLabels := fun _ _ _ => none,
    canon := fun ls => (ls.headD ("", "")).2,
    tokenFor := fun _ _ => 0,
    ringGet := fun _ => .ok ⟨["A"], 0⟩,
    allowN := fun _ => true,
    limit := 0 }

/-- `envOneIngester` with a rate limiter that rejects everything at an
effective limit of 100. -/
def envRateLimited : DistEnv :=
  { envOneIngester with allowN := fun _ => false, limit := 100 }

/-- `envOneIngester` with routing keys equal to the canonical label
length and a ring whose lookup fails for every key except 1. -/
def envRingFails : DistEnv :=
  { envOneIngester with
    tokenFor := fun _ lbl => lbl.length,
    ringGet := fun k => if k = 1 then .ok ⟨["A"], 0⟩ else .error "ring failure" }

/-- An environment for exercising the label cache: only the key `k`
parses, and canonicalisation is constant. -/
def envCache : DistEnv :=
  { parseLabels := fun s => if s = "k" then some [("a", "b")] else none,
    validateLabels := fun _ _ _ => none,
    canon := fun _ => "CANON",
    tokenFor := fun _ _ => 0,
    ringGet := fun _ => .ok ⟨["A"], 0⟩,
    allowN := fun _ => true,
    limit := 0 }

/-! # Theorems

Helper lemmas first, then one theorem per claim (with witnesses for the
theorems that carry hypotheses). -/

/-- The tail of `Push` never changes the retained `validationErr`. -/
theorem pushAfterPrep_validationErr (env : DistEnv) (userID : String) (p : PrepState) :
    (pushAfterPrep env userID p).validationErr = p.validationErr := by
  unfold pushAfterPrep
  split
  · rfl
  · split
    · rfl
    · split <;> rfl

/-- The tail of `Push` never changes the error log. -/
theorem pushAfterPrep_errLog (env : DistEnv) (userID : String) (p : PrepState) :
    (pushAfterPrep env userID p).errLog = p.errLog := by
  unfold pushAfterPrep
  split
  · rfl
  · split
    · rfl
    · split <;> rfl

/-- The tail of `Push` never changes the log of validated entries. -/
theorem pushAfterPrep_checkedLog (env : DistEnv) (userID : String) (p : PrepState) :
    (pushAfterPrep env userID p).checkedLog = p.checkedLog := by
  unfold pushAfterPrep
  split
  · rfl
  · split
    · rfl
    · split <;> rfl

/-- Folding the overwrite-update of `validationErr` over a list of
errors yields the last error, or the initial value when there is
none. -/
theorem foldl_overwrite (l : List PushErr) :
    ∀ d : Option PushErr, l.foldl (fun _ e => some e) d = l.getLast?.elim d some := by
  induction l with
  | nil => intro d; rfl
  | cons a t ih =>
    intro d
    rw [List.foldl_cons, ih]
    cases t with
    | nil => rfl
    | cons b t2 =>
      rw [List.getLast?_cons_cons]
      cases h : (b :: t2).getLast? with
      | none => simp at h
      | some x => rfl

/-- One preparation-loop iteration keeps `validationErr` equal to the
overwrite-fold of the error log. -/
theorem prepStream_lastErr (env : DistEnv) (now : Int) (uid : String) (v : ValidationContext)
    (st : PrepState) (raw : Stream)
    (h : st.validationErr = st.errLog.foldl (fun _ e => some e) none) :
    (prepStream env now uid v st raw).validationErr
      = (prepStream env now uid v st raw).errLog.foldl (fun _ e => some e) none := by
  unfold prepStream
  split
  · simpa using h
  · dsimp only
    split
    · simp [List.foldl_append]
    · simp [List.foldl_append, ← h]

/-- The whole preparation loop keeps `validationErr` equal to the
overwrite-fold of the error log. -/
theorem prep_lastErr (env : DistEnv) (now : Int) (uid : String) (v : ValidationContext)
    (req : List Stream) : ∀ st : PrepState,
    st.validationErr = st.errLog.foldl (fun _ e => some e) none →
    (req.foldl (prepStream env now uid v) st).validationErr
      = (req.foldl (prepStream env now uid v) st).errLog.foldl (fun _ e => some e) none := by
  induction req with
  | nil => intro st h; simpa using h
  | cons a t ih =>
    intro st h
    exact ih _ (prepStream_lastErr env now uid v st a h)

/-- With truncation enabled and a non-zero `max_line_size`, every entry
of a stream that went through `truncateLines` has a line of at most
`max_line_size` bytes. -/
theorem truncateLines_entries_le (v : ValidationContext) (s : Stream)
    (ht : v.maxLineSizeTruncate = true) (hm : v.maxLineSize ≠ 0) :
    ∀ e ∈ (truncateLines v s).1.entries, e.line.length ≤ v.maxLineSize := by
  intro e he
  simp [truncateLines, ht] at he
  obtain ⟨a, _, rfl⟩ := he
  unfold truncEntry
  split
  · simp
  · rename_i hnt
    simp [needsTrunc, hm] at hnt
    exact hnt

/-- One preparation-loop iteration only ever hands post-truncation
entries to entry validation. -/
theorem prepStream_checked_le (env : DistEnv) (now : Int) (uid : String)
    (v : ValidationContext) (st : PrepState) (raw : Stream)
    (ht : v.maxLineSizeTruncate = true) (hm : v.maxLineSize ≠ 0)
    (h : ∀ e ∈ st.checkedLog, e.line.length ≤ v.maxLineSize) :
    ∀ e ∈ (prepStream env now uid v st raw).checkedLog, e.line.length ≤ v.maxLineSize := by
  unfold prepStream
  split
  · simpa using h
  · dsimp only
    split
    · simpa using h
    · intro e he
      rw [List.mem_append] at he
      rcases he with he | he
      · exact h e he
      · exact truncateLines_entries_le v raw ht hm e he

/-- The whole preparation loop only hands post-truncation entries to
entry validation. -/
theorem prep_checked_le (env : DistEnv) (now : Int) (uid : String)
    (v : ValidationContext) (req : List Stream)
    (ht : v.maxLineSizeTruncate = true) (hm : v.maxLineSize ≠ 0) :
    ∀ st : PrepState,
    (∀ e ∈ st.checkedLog, e.line.length ≤ v.maxLineSize) →
    ∀ e ∈ (req.foldl (prepStream env now uid v) st).checkedLog,
      e.line.length ≤ v.maxLineSize := by
  induction req with
  | nil => intro st h; simpa using h
  | cons a t ih =>
    intro st h
    exact ih _ (prepStream_checked_le env now uid v st a ht hm h)

/-- `cacheAdd` preserves the cache soundness invariant when the new
binding was parsed, validated and canonicalised. -/
theorem cacheOK_add (env : DistEnv) (c : LabelCache) (k : String)
    (ls : List (String × String)) (vc : ValidationContext) (stream : Stream)
    (h : CacheOK env c) (hp : env.parseLabels k = some ls)
    (hv : env.validateLabels vc ls stream = none) :
    CacheOK env (cacheAdd c k (env.canon ls)) := by
  intro p hmem
  unfold cacheAdd at hmem
  have hmem2 := List.take_subset _ _ hmem
  rcases List.mem_cons.1 hmem2 with heq | hmem3
  · subst heq
    exact ⟨ls, hp, rfl, vc, stream, hv⟩
  · exact h p (List.mem_of_mem_filter hmem3)

/-- `parseStreamLabels` preserves the cache soundness invariant: it
inserts a binding only on the path where parsing and validation both
succeeded. -/
theorem parseStreamLabels_cacheOK (env : DistEnv) (v : ValidationContext)
    (c : LabelCache) (key : String) (stream : Stream) (h : CacheOK env c) :
    CacheOK env (parseStreamLabels env v c key stream).2 := by
  unfold parseStreamLabels
  split
  · exact h
  · split
    · exact h
    · split
      · exact h
      · exact cacheOK_add env c key _ v stream h (by assumption) (by assumption)

/-- Every cache reachable from the empty cache through
`parseStreamLabels` calls satisfies the soundness invariant. -/
theorem runParseCalls_cacheOK (env : DistEnv)
    (calls : List (ValidationContext × String × Stream)) :
    CacheOK env (runParseCalls env calls) := by
  have hgen : ∀ c, CacheOK env c →
      CacheOK env (calls.foldl
        (fun c q => (parseStreamLabels env q.1 c q.2.1 q.2.2).2) c) := by
    induction calls with
    | nil => intro c h; exact h
    | cons a t ih =>
      intro c h
      exact ih _ (parseStreamLabels_cacheOK env a.1 c a.2.1 a.2.2 h)
  exact hgen [] (by intro p hp; simp at hp)

/-- C1: evaluation of the embedded `sendToIngester` decision logic at a
failing schedule.  Two surviving streams, each with replication factor
3 and `max_errors` 1 (success budget 2), routed to disjoint ingester
sets; the three replicas holding stream 0 all succeed before any
replica of stream 1 completes.  Because the code decrements `pending`
on every success at or beyond the budget (`successBucket.Dec() > 0`),
stream 0 alone drives `pending` to 0: `done` is signalled (so `Push`
returns success) while stream 1's success budget is still 2 — it has
received no acknowledgement at all.  This refutes both directions of
the claimed invariant at a real interleaving. -/
theorem overdecrement_signals_done_without_quorum :
    (runTrace (initTracker [2, 2] [1, 1])
      (ingesterEvents [0] true ++ ingesterEvents [0] true ++ ingesterEvents [0] true))
      = { succ := [-1, 2], fail := [1, 1], pending := 0, failed := false,
          doneSends := 1, errSends := 0 } := by
  decide

/-- C2: evaluation of the embedded `sendToIngester` decision logic at
the S5 scenario (replication factor 3, `max_errors` 1, so the buckets
are success 2 / failure 1).  The first failing replica RPC alone drives
`failureBucket.Dec()` to 0, which is not `> 0`, so the request is
marked failed and `err` is signalled after exactly `max_errors`
failures — not after more than `max_errors` as the claim states; and on
the full one-error-two-successes schedule both channels receive a
value, so `Push` is not guaranteed to return success. -/
theorem failure_budget_exhausted_at_max_errors :
    (runTrace (initTracker [2] [1]) (ingesterEvents [0] false))
      = { succ := [2], fail := [0], pending := 1, failed := true,
          doneSends := 0, errSends := 1 }
    ∧ (runTrace (initTracker [2] [1])
        (ingesterEvents [0] false ++ ingesterEvents [0] true ++ ingesterEvents [0] true))
      = { succ := [0], fail := [0], pending := 0, failed := true,
          doneSends := 1, errSends := 1 } := by
  decide

/-- C6: evaluation of the embedded tracker at a schedule on which both
completion channels receive a value for the same request.  Streams 0
and 1 each have replication factor 3 and `max_errors` 1, on disjoint
ingester sets; the three replicas of stream 0 succeed (the repeated
pending decrement signals `done`), then one replica of stream 1 fails
and its failure bucket of 1 is exhausted, signalling `err`.  Each
channel receives at most one value, but the claimed "never both" is
violated. -/
theorem done_and_err_both_signalled :
    (runTrace (initTracker [2, 2] [1, 1])
      (ingesterEvents [0] true ++ ingesterEvents [0] true ++ ingesterEvents [0] true
        ++ ingesterEvents [1] false))
      = { succ := [-1, 2], fail := [1, 0], pending := 0, failed := true,
          doneSends := 1, errSends := 1 } := by
  decide

/-- C4: evaluation of `truncateLines` with `max_line_size` 3 on a
stream with lines of 5 and 7 bytes.  Both lines are truncated in place
to exactly 3 bytes and the mutated-samples counter is advanced by 2,
but the mutated-bytes counter is advanced by 4 — the byte delta of the
last truncated entry only — because the loop assigns instead of
accumulating; the cumulative sum the claim requires is
(5 - 3) + (7 - 3) = 6. -/
theorem truncate_bytes_counter_last_delta_only :
    truncateLines ctxTrunc3
      { labels := "l",
        entries := [⟨0, ['a', 'b', 'c', 'd', 'e']⟩, ⟨1, ['a', 'b', 'c', 'd', 'e', 'f', 'g']⟩] }
      = ({ labels := "l", entries := [⟨0, ['a', 'b', 'c']⟩, ⟨1, ['a', 'b', 'c']⟩] }, 2, 4)
    ∧ 4 ≠ (5 - 3) + (7 - 3) := by
  decide

/-- C3 counterexample: a request with two streams whose label strings
both fail to parse.  The first error encountered is `InvalidLabels "a"`
but the error `Push` retains and returns alongside the empty response
is `InvalidLabels "b"` — the last one, because every validation failure
overwrites `validationErr`.  This refutes the claim that the first
error is retained. -/
theorem push_retains_second_error_not_first :
    (push envParseFail 0 "tenant" ctxPlain []
        [⟨"a", [⟨0, []⟩]⟩, ⟨"b", [⟨0, []⟩]⟩]).errLog
      = [.invalidLabels "a", .invalidLabels "b"]
    ∧ (push envParseFail 0 "tenant" ctxPlain []
        [⟨"a", [⟨0, []⟩]⟩, ⟨"b", [⟨0, []⟩]⟩]).outcome
      = .success (some (.invalidLabels "b"))
    ∧ (PushErr.invalidLabels "b") ≠ (PushErr.invalidLabels "a") := by
  decide

/-- C7: evaluation of `push` on a request with two distinct valid
streams, both routed to the single ingester `A`.  The per-destination
index list is `[0, 1]` in input order, but because every
`streamTracker` stores the address of the one loop variable, the
payload `sendToIngester` builds holds two copies of the last iterated
stream (labels `"b"`), and the first payload slot differs from the
stream that survived preparation at index 0 (labels `"a"`).  This
refutes the claim that each payload slot carries its own stream. -/
theorem payload_aliases_loop_variable :
    (push envOneIngester 0 "tenant" ctxPlain []
        [⟨"a", [⟨0, ['x']⟩]⟩, ⟨"b", [⟨0, ['y']⟩]⟩]).outcome
      = .fanout
          { byIngester := [("A", [0, 1])],
            payloads := [("A",
              [⟨"b", [⟨0, ['y']⟩]⟩, ⟨"b", [⟨0, ['y']⟩]⟩])],
            succInit := [1, 1],
            failInit := [0, 0] }
          none
    ∧ (⟨"b", [⟨0, ['y']⟩]⟩ : Stream) ≠ ⟨"a", [⟨0, ['x']⟩]⟩ := by
  decide

/-- C3 (amended): the validation error `Push` retains in
`validationErr` — and returns alongside any partial success — is the
LAST validation error encountered in the request, in input order (every
label or entry failure overwrites the variable), not the first. -/
theorem push_retains_last_error (env : DistEnv) (now : Int) (uid : String)
    (v : ValidationContext) (cache : LabelCache) (req : List Stream) :
    (push env now uid v cache req).validationErr
      = (push env now uid v cache req).errLog.getLast? := by
  unfold push
  split
  · rfl
  · rw [pushAfterPrep_validationErr, pushAfterPrep_errLog]
    unfold prepped
    rw [prep_lastErr env now uid v req (initPrep cache) rfl, foldl_overwrite]
    cases ((req.foldl (prepStream env now uid v) (initPrep cache)).errLog).getLast? <;> rfl

/-- C5: if at least one stream survives preparation and the rate
limiter rejects the total byte size of the surviving entries, `Push`
fails the whole request with a RateLimited error carrying the tenant
id, the effective limit, the surviving sample count and the surviving
byte count; the rate-limited discarded-samples and discarded-bytes
counters are advanced by exactly those counts; and the outcome is a
failure, not a fan-out — no ingester RPC is issued. -/
theorem push_rate_limited (env : DistEnv) (now : Int) (uid : String)
    (v : ValidationContext) (cache : LabelCache) (req : List Stream)
    (hsurv : (prepped env now uid v cache req).streams.isEmpty = false)
    (hdeny : env.allowN (prepped env now uid v cache req).validatedSamplesSize = false) :
    (push env now uid v cache req).outcome
      = .failure (.rateLimited uid env.limit
          (prepped env now uid v cache req).validatedSamplesCount
          (prepped env now uid v cache req).validatedSamplesSize)
    ∧ (push env now uid v cache req).discRlSamples
        = (prepped env now uid v cache req).validatedSamplesCount
    ∧ (push env now uid v cache req).discRlBytes
        = (prepped env now uid v cache req).validatedSamplesSize := by
  have hreq : req.isEmpty = false := by
    cases hl : req.isEmpty
    · rfl
    · exfalso
      have hnil : req = [] := by simpa using hl
      rw [hnil] at hsurv
      simp [prepped, initPrep] at hsurv
  unfold push
  rw [hreq]
  simp only [Bool.false_eq_true, if_false]
  unfold pushAfterPrep
  rw [hsurv]
  simp only [Bool.false_eq_true, if_false, hdeny]
  simp

/-- C5 witness: a request with one 5-byte stream against an environment
whose limiter rejects everything at effective limit 100 is failed as
RateLimited with tenant id, limit 100, 1 sample and 5 bytes, and the
rate-limited discard counters advance by 1 and 5. -/
theorem push_rate_limited_witness :
    (push envRateLimited 0 "tenant" ctxPlain []
        [⟨"a", [⟨0, ['x', 'y', 'z', 'w', 'q']⟩]⟩]).outcome
      = .failure (.rateLimited "tenant" 100 1 5)
    ∧ (push envRateLimited 0 "tenant" ctxPlain []
        [⟨"a", [⟨0, ['x', 'y', 'z', 'w', 'q']⟩]⟩]).discRlSamples = 1
    ∧ (push envRateLimited 0 "tenant" ctxPlain []
        [⟨"a", [⟨0, ['x', 'y', 'z', 'w', 'q']⟩]⟩]).discRlBytes = 5 := by
  have h := push_rate_limited envRateLimited 0 "tenant" ctxPlain []
    [⟨"a", [⟨0, ['x', 'y', 'z', 'w', 'q']⟩]⟩] (by decide) (by decide)
  exact ⟨h.1, h.2.1, h.2.2⟩

/-- C8: with truncation enabled and `max_line_size` non-zero, every
entry `Push` hands to entry validation has a line of at most
`max_line_size` bytes (truncation runs before validation in the
pipeline), and entry validation as modelled from the spec never rejects
an entry for exceeding `max_line_size` while truncation is enabled. -/
theorem truncation_precedes_validation (env : DistEnv) (now : Int) (uid : String)
    (v : ValidationContext) (cache : LabelCache) (req : List Stream)
    (ht : v.maxLineSizeTruncate = true) (hm : v.maxLineSize ≠ 0) :
    (∀ e ∈ (push env now uid v cache req).checkedLog, e.line.length ≤ v.maxLineSize)
    ∧ ∀ e, validateEntry now v e ≠ some .lineTooLong := by
  constructor
  · unfold push
    split
    · intro e he
      simp at he
    · rw [pushAfterPrep_checkedLog]
      exact prep_checked_le env now uid v req ht hm (initPrep cache)
        (by intro e he; simp [initPrep] at he)
  · intro e
    unfold validateEntry
    rw [if_neg (by simp [ht])]
    split
    · simp
    · split <;> simp

/-- C8 witness: with `max_line_size` 3 and truncation on, the 5-byte
line pushed through the pipeline reaches validation truncated to 3
bytes (so within the limit), and a still-long entry is not rejected as
line-too-long by the modelled validator. -/
theorem truncation_precedes_validation_witness :
    ((⟨0, ['x', 'y', 'z']⟩ : Entry)).line.length ≤ ctxTrunc3.maxLineSize
    ∧ validateEntry 0 ctxTrunc3 ⟨0, ['x', 'y', 'z', 'w', 'q']⟩ ≠ some .lineTooLong := by
  have h := truncation_precedes_validation envOneIngester 0 "tenant" ctxTrunc3 []
    [⟨"l", [⟨0, ['x', 'y', 'z', 'w', 'q']⟩]⟩] rfl (by decide)
  exact ⟨h.1 _ (by decide), h.2 _⟩

/-- C9: for every cache reachable from the empty cache by
`parseStreamLabels` calls, a cache hit returns exactly the canonical
string a fresh parse and canonicalisation of the same input produces,
and the hit value was inserted only after the input passed label
validation (under the validation context of the inserting request). -/
theorem parseStreamLabels_cache_hit (env : DistEnv)
    (calls : List (ValidationContext × String × Stream))
    (v : ValidationContext) (key : String) (stream : Stream) (val : String)
    (hhit : cacheGet (runParseCalls env calls) key = some val) :
    (parseStreamLabels env v (runParseCalls env calls) key stream).1 = .ok val
    ∧ ∃ ls, env.parseLabels key = some ls ∧ val = env.canon ls ∧
        ∃ vc s2, env.validateLabels vc ls s2 = none := by
  constructor
  · unfold parseStreamLabels
    rw [hhit]
  · unfold cacheGet at hhit
    obtain ⟨p, hfind, hval⟩ : ∃ p,
        List.find? (fun q => q.1 = key) (runParseCalls env calls) = some p ∧ p.2 = val := by
      cases hf : List.find? (fun q => q.1 = key) (runParseCalls env calls) with
      | none => rw [hf] at hhit; simp at hhit
      | some p =>
        rw [hf] at hhit
        simp at hhit
        exact ⟨p, rfl, hhit⟩
    have hpmem := List.mem_of_find?_eq_some hfind
    have hpkey : p.1 = key := by
      have h2 := List.find?_some hfind
      simpa using h2
    obtain ⟨ls, hp, hcanon, hex⟩ := runParseCalls_cacheOK env calls p hpmem
    rw [hpkey] at hp
    exact ⟨ls, hp, by rw [← hval]; exact hcanon, hex⟩

/-- C9 witness: after one `parseStreamLabels` call inserts the key `k`
(canonicalised to `CANON`), a second call hits the cache and returns
exactly `CANON`. -/
theorem parseStreamLabels_cache_hit_witness :
    (parseStreamLabels envCache ctxPlain
        (runParseCalls envCache [(ctxPlain, "k", ⟨"k", []⟩)]) "k" ⟨"k", []⟩).1
      = .ok "CANON" :=
  (parseStreamLabels_cache_hit envCache [(ctxPlain, "k", ⟨"k", []⟩)]
    ctxPlain "k" ⟨"k", []⟩ "CANON" (by decide)).1

/-- C10: if at least one stream survives preparation, the rate limiter
admits the request, and the ring lookup loop fails (it returns the
first lookup error in key order), `Push` returns that lookup error; the
outcome is a failure, not a fan-out, so no fan-out task is started and
no ingester RPC is issued for any stream — including streams whose own
lookup had already succeeded. -/
theorem push_ring_error (env : DistEnv) (now : Int) (uid : String)
    (v : ValidationContext) (cache : LabelCache) (req : List Stream) (e : String)
    (hsurv : (prepped env now uid v cache req).streams.isEmpty = false)
    (hallow : env.allowN (prepped env now uid v cache req).validatedSamplesSize = true)
    (hring : lookupAll env (prepped env now uid v cache req).keys = .error e) :
    (push env now uid v cache req).outcome = .failure (.ringError e) := by
  have hreq : req.isEmpty = false := by
    cases hl : req.isEmpty
    · rfl
    · exfalso
      have hnil : req = [] := by simpa using hl
      rw [hnil] at hsurv
      simp [prepped, initPrep] at hsurv
  unfold push
  rw [hreq]
  simp only [Bool.false_eq_true, if_false]
  unfold pushAfterPrep
  rw [hsurv]
  simp only [Bool.false_eq_true, if_false, hallow, hring]
  simp

/-- C10 witness: two surviving streams with routing keys 1 and 2; the
ring lookup for key 1 succeeds but the one for key 2 fails, and `Push`
returns the ring error with no fan-out — also for the stream whose own
lookup had succeeded. -/
theorem push_ring_error_witness :
    (push envRingFails 0 "tenant" ctxPlain []
        [⟨"a", [⟨0, ['x']⟩]⟩, ⟨"bb", [⟨0, ['y']⟩]⟩]).outcome
      = .failure (.ringError "ring failure") :=
  push_ring_error envRingFails 0 "tenant" ctxPlain []
    [⟨"a", [⟨0, ['x']⟩]⟩, ⟨"bb", [⟨0, ['y']⟩]⟩] "ring failure"
    (by decide) (by decide) rfl

end Distributor
